import Mathlib

/-!
Verification development for the EyeLove dark-mode engine
(`src/content-scripts/main.ts`).

Conventions of the shallow embedding:

* JavaScript numbers are modelled as exact rationals (`ℚ`).
* The external `culori` color library is not part of this repository; the
  slice of its interface that the content script uses (`parse`, `oklch`,
  `rgb`, `formatHex`) is an abstract parameter (`CuloriModel`), so theorems
  quantify over all possible behaviours of the library.  A simple concrete
  instantiation (`ciM`) is used to run the engine on explicit inputs.
* DOM state touched by the engine (inline style attributes, the
  `data-eyelove-styled` marker, the `elementOriginalStyles` WeakMap entry,
  the adopted stylesheet list, the body class, the mutation observer) is
  modelled explicitly; the WeakMap entry is stored on the element record
  itself since the map is keyed by element identity.
* Fallible operations return `Option`; a `try`/`catch` whose body produces a
  value corresponds to the `none` case of the `Option`.
-/

namespace EyeLove

/-- Color in the perceptual OKLCH space, mirroring the content script's
`Oklch` interface (lines 8-14): lightness, chroma, optional hue and optional
alpha.  The `mode: "oklch"` tag is carried by the type itself. -/
structure Oklch where
  l : ℚ
  c : ℚ
  h : Option ℚ
  alpha : Option ℚ
deriving DecidableEq

/-- An rgb triple as returned by the library's `culori.rgb` conversion. -/
structure Rgb where
  r : ℚ
  g : ℚ
  b : ℚ
deriving DecidableEq

/-- Constant `TARGET_CONTRAST` (main.ts line 26): WCAG AA target 4.5. -/
def TARGET_CONTRAST : ℚ := 9/2

/-- Constant `MAX_CONTRAST_ITERATIONS` (main.ts line 28). -/
def MAX_CONTRAST_ITERATIONS : Nat := 10

/-- Function `getRelativeLuminance` (lines 39-58), parameterized by the
external conversion `culori.rgb`.  The hue is defaulted to 0 before the
conversion (lines 42-45); a failed conversion — or an error caught by the
surrounding `try` — yields 0. -/
def getRelativeLuminance (rgbOf : Oklch → Option Rgb) (oklchColor : Oklch) : ℚ :=
  let color : Oklch := { oklchColor with h := some (oklchColor.h.getD 0) }
  match rgbOf color with
  | none => 0
  | some rgb => 2126/10000 * rgb.r + 7152/10000 * rgb.g + 722/10000 * rgb.b

/-- Function `calculateContrastRatio` (lines 67-74); the `undefined` guards of
line 68 cannot arise for rational inputs.  (The Lean name is shortened from
the source's name.) -/
def calculateContrast (luminance1 luminance2 : ℚ) : ℚ :=
  (max luminance1 luminance2 + 1/20) / (min luminance1 luminance2 + 1/20)

/-- Result of the adjustment loop of `adjustTextLightnessForContrast`: the
final lightness, the finally tracked text luminance, and — as specification
instrumentation absent from the source — the list of step sizes used by the
successive iterations, in order. -/
structure AdjustResult where
  l : ℚ
  textLum : ℚ
  steps : List ℚ
deriving DecidableEq

/-- The `while` loop of `adjustTextLightnessForContrast` (lines 113-134).
`fuel` stands for `MAX_CONTRAST_ITERATIONS - iterations`, so the source's
guard `iterations < MAX_CONTRAST_ITERATIONS` becomes `fuel > 0`.  The `||` on
line 127 keeps the previous text luminance when the recomputed one is 0
(falsy in JavaScript); the step size is reduced to 0.025 once the iteration
counter exceeds 5 (line 131), after the move of that iteration. -/
def adjustLoop (rgbOf : Oklch → Option Rgb) (c : ℚ) (h : Option ℚ)
    (backgroundLuminance targetContrast : ℚ) (isDarkBackground : Bool) :
    Nat → Nat → ℚ → ℚ → ℚ → AdjustResult
  | 0, _, l, textLum, _ => ⟨l, textLum, []⟩
  | fuel + 1, iterations, l, textLum, step =>
    if calculateContrast backgroundLuminance textLum < targetContrast then
      let newL := if isDarkBackground = true then min 1 (l + step) else max 0 (l - step)
      let lum := getRelativeLuminance rgbOf ⟨newL, c, h, none⟩
      let textLum2 := if lum = 0 then textLum else lum
      let step2 := if iterations > 5 then 1/40 else step
      let r := adjustLoop rgbOf c h backgroundLuminance targetContrast
        isDarkBackground fuel (iterations + 1) newL textLum2 step2
      ⟨r.l, r.textLum, step :: r.steps⟩
    else ⟨l, textLum, []⟩

/-- The run of the loop performed by `adjustTextLightnessForContrast`: the
direction is decided by `backgroundLuminance < 0.5` (line 103), the initial
text luminance comes from the cloned color (line 106), and the initial step
is 0.05 (line 114). -/
def adjustRun (rgbOf : Oklch → Option Rgb) (textColorOklch : Oklch)
    (backgroundLuminance targetContrast : ℚ) : AdjustResult :=
  adjustLoop rgbOf textColorOklch.c textColorOklch.h backgroundLuminance
    targetContrast (decide (backgroundLuminance < 1/2)) MAX_CONTRAST_ITERATIONS 0
    textColorOklch.l
    (getRelativeLuminance rgbOf ⟨textColorOklch.l, textColorOklch.c, textColorOklch.h, none⟩)
    (1/20)

/-- Function `adjustTextLightnessForContrast` (lines 84-143).  The guards for
`null`/`undefined` arguments (lines 90-92 and 107) cannot arise in the typed
model and are dropped.  The function mutates a clone holding only `l`, `c`
and `h` of its input (lines 95-100), so the result carries no alpha. -/
def adjustTextLightnessForContrast (rgbOf : Oklch → Option Rgb)
    (textColorOklch : Oklch) (backgroundLuminance targetContrast : ℚ) : Oklch :=
  let r := adjustRun rgbOf textColorOklch backgroundLuminance targetContrast
  ⟨r.l, textColorOklch.c, textColorOklch.h, none⟩

/-- Loop of the contrast adjuster exactly as claim C8 words its step
schedule: a step of 0.05 per iteration, shrinking to 0.025 after 5
iterations — that is, the sixth and later moves use 0.025.  Written only to
be compared with the implementation's `adjustLoop`. -/
def adjustLoopClaimed (rgbOf : Oklch → Option Rgb) (c : ℚ) (h : Option ℚ)
    (backgroundLuminance targetContrast : ℚ) (isDarkBackground : Bool) :
    Nat → Nat → ℚ → ℚ → AdjustResult
  | 0, _, l, textLum => ⟨l, textLum, []⟩
  | fuel + 1, iterations, l, textLum =>
    if calculateContrast backgroundLuminance textLum < targetContrast then
      let step : ℚ := if iterations < 5 then 1/20 else 1/40
      let newL := if isDarkBackground = true then min 1 (l + step) else max 0 (l - step)
      let lum := getRelativeLuminance rgbOf ⟨newL, c, h, none⟩
      let textLum2 := if lum = 0 then textLum else lum
      let r := adjustLoopClaimed rgbOf c h backgroundLuminance targetContrast
        isDarkBackground fuel (iterations + 1) newL textLum2
      ⟨r.l, r.textLum, step :: r.steps⟩
    else ⟨l, textLum, []⟩

/-- Contrast adjuster with the step schedule claimed by the specification,
for comparison with `adjustTextLightnessForContrast`. -/
def adjustClaimed (rgbOf : Oklch → Option Rgb) (textColorOklch : Oklch)
    (backgroundLuminance targetContrast : ℚ) : Oklch :=
  let r := adjustLoopClaimed rgbOf textColorOklch.c textColorOklch.h
    backgroundLuminance targetContrast (decide (backgroundLuminance < 1/2))
    MAX_CONTRAST_ITERATIONS 0 textColorOklch.l
    (getRelativeLuminance rgbOf ⟨textColorOklch.l, textColorOklch.c, textColorOklch.h, none⟩)
  ⟨r.l, textColorOklch.c, textColorOklch.h, none⟩

/-- The slice of the external culori library used by the content script, as
abstract data: `parse` (returning `none` where the library returns
`undefined` or throws), the alpha accessor on the parsed object, the `oklch`
conversion, the `rgb` conversion and `formatHex`.  `Str` is the type of CSS
color strings, `C` the type of parsed color objects.  `formatHex` is total:
the library always produces a hex string for a well-formed oklch object. -/
structure CuloriModel (Str C : Type) where
  parse : Str → Option C
  alphaOf : C → Option ℚ
  toOklch : C → Option Oklch
  rgbOf : Oklch → Option Rgb
  formatHex : Oklch → Str

/-- Constant `TARGET_CSS_VARIABLES` (lines 146-164). -/
def TARGET_CSS_VARIABLES : List String := [
  "--bg-color", "--background-color", "--background", "--body-bg", "--body-background",
  "--surface-color", "--surface", "--color-background", "--page-bg",
  "--text-color", "--color-text", "--text", "--body-color", "--foreground-color",
  "--color-foreground", "--fg-color", "--primary-text-color",
  "--border-color", "--color-border",
  "--link-color", "--anchor-color", "--color-link",
  "--primary-color", "--primary", "--accent-color", "--accent", "--color-primary",
  "--secondary-color", "--secondary", "--color-secondary",
  "--bs-body-bg", "--bs-body-color", "--bs-border-color",
  "--md-sys-color-surface", "--md-sys-color-on-surface"]

/-- Static page environment: the resolved (trimmed) values of custom
properties on the document root, `none` for an empty resolution.  The
generated overrides are scoped under the body marker class (lines 544-545),
so activation does not change what `getComputedStyle(document.documentElement)`
reports for these variables; they are therefore modelled as fixed. -/
structure Env (Str : Type) where
  rootVars : String → Option Str

/-- CSS-variable override generation inside `applyDarkModeStyles`
(lines 186-233, "Strategy 1"), producing `(variable name, new color)` pairs;
the fixed fallback declarations that lines 542-560 append around these rules
are constant and elided from the model. -/
def strategy1Rules {Str C : Type} (M : CuloriModel Str C) (env : Env Str) :
    List (String × Str) :=
  TARGET_CSS_VARIABLES.filterMap fun varName =>
    match env.rootVars varName with
    | none => none
    | some value =>
      match M.parse value with
      | none => none
      | some parsed =>
        match M.toOklch parsed with
        | none => none
        | some originalOklch =>
          let newL := max 0 (min 1 (1 - originalOklch.l))
          let newC := max 0 (originalOklch.c * (3/10))
          let newH := originalOklch.h.getD 0
          some (varName, M.formatHex ⟨newL, newC, some newH, none⟩)

/-- Model of an element's inline `style` attribute: the page author's
original attribute text plus the four properties the engine writes through
`style.setProperty(..., "important")`, with replace semantics mirroring CSS
serialization.  The attribute is present iff any component is present. -/
structure StyleAttr (Str : Type) where
  base : Option String
  bg : Option Str
  color : Option Str
  fill : Option Str
  stroke : Option Str
deriving DecidableEq

/-- An absent inline style attribute. -/
def emptyStyle {Str : Type} : StyleAttr Str := ⟨none, none, none, none, none⟩

/-- Result of `getAttribute("style")`: `null` (here `none`) when the
attribute is absent, otherwise the attribute's value. -/
def styleAttrGet {Str : Type} (st : StyleAttr Str) : Option (StyleAttr Str) :=
  if st.base.isNone ∧ st.bg.isNone ∧ st.color.isNone ∧ st.fill.isNone ∧ st.stroke.isNone
  then none else some st

/-- Kind of a DOM element, as far as the engine's `instanceof` checks look:
an `HTMLElement`, an `SVGElement`, or anything else. -/
inductive EKind
  | html
  | svg
  | other
deriving DecidableEq

/-- One DOM element as seen by the per-element rewriter: immutable
classification data, the page-authored computed colors (in effect whenever no
engine inline override is present; `none` for fill/stroke models the computed
value `"none"`), and the element state the engine mutates — the inline style
attribute, the `data-eyelove-styled` marker, and this element's entry in the
`elementOriginalStyles` WeakMap (`none` = no entry; `some v` = an entry whose
value is the snapshotted `getAttribute("style")` result).  The field
`hasDirectText` records whether the element has direct text children. -/
structure PElem (Str : Type) where
  kind : EKind
  tagName : String
  offsetWidth : ℚ
  offsetHeight : ℚ
  hasDirectText : Bool
  baseBg : Str
  baseColor : Str
  baseFill : Option Str
  baseStroke : Option Str
  sty : StyleAttr Str
  marker : Bool
  snap : Option (Option (StyleAttr Str))
deriving DecidableEq

/-- Record captured for one element by a read phase (lines 243-283 and
723-745).  Computed colors resolve the engine's own `!important` inline
overrides first, then the page's value.  The `borderTopColor` captured on
line 260 is never consulted by any write phase and is omitted. -/
structure StyleRecord (Str : Type) where
  originalBg : Str
  originalColor : Str
  originalFill : Option Str
  originalStroke : Option Str

/-- Read phase for a single element (`getComputedStyle`, lines 254-282):
computed style strings are never empty, so the source's truthiness guards on
them are vacuous. -/
def readElem {Str : Type} (e : PElem Str) : StyleRecord Str :=
  { originalBg := e.sty.bg.getD e.baseBg
    originalColor := e.sty.color.getD e.baseColor
    originalFill := match e.sty.fill with
      | some s => some s
      | none => e.baseFill
    originalStroke := match e.sty.stroke with
      | some s => some s
      | none => e.baseStroke }

/-- Outcome of the background-color processing for one element: the computed
override (if any), `finalBackgroundL`, and `backgroundLuminance` before the
fallback of lines 342-345. -/
structure BgResult where
  newBg : Option Oklch
  finalBackgroundL : ℚ
  backgroundLuminance : Option ℚ
deriving DecidableEq

/-- Background-color processing of the write phase (lines 294-338; the
incremental pass duplicates the same logic on lines 751-810).  Buttons get a
flat 0.35 target lightness and a times-0.1 chroma; other elements get
inverted lightness and times-0.3 chroma. -/
def processBg {Str C : Type} (M : CuloriModel Str C) (isButton : Prop)
    [Decidable isButton] (originalBg : Str) : BgResult :=
  match M.parse originalBg with
  | some parsedBg =>
    if 1/2 < (M.alphaOf parsedBg).getD 1 then
      match M.toOklch parsedBg with
      | some oklchBg =>
        if 3/10 < oklchBg.l then
          let targetL := if isButton then 35/100 else 1 - oklchBg.l
          let targetC := if isButton then oklchBg.c * (1/10) else oklchBg.c * (3/10)
          let newH := oklchBg.h.getD 0
          let targetL2 := max 0 (min 1 targetL)
          let targetC2 := max 0 targetC
          let darkOklchBg : Oklch := ⟨targetL2, targetC2, some newH, none⟩
          ⟨some darkOklchBg, targetL2, some (getRelativeLuminance M.rgbOf darkOklchBg)⟩
        else
          ⟨none, oklchBg.l, some (getRelativeLuminance M.rgbOf oklchBg)⟩
      | none => ⟨none, 2/10, none⟩
    else
      ⟨none, 2/10, some (getRelativeLuminance M.rgbOf ⟨2/10, 0, some 0, none⟩)⟩
  | none =>
    ⟨none, 2/10, some (getRelativeLuminance M.rgbOf ⟨2/10, 0, some 0, none⟩)⟩

/-- Text-color processing of the initial pass's write phase (lines 347-404):
invert and desaturate, then — only when the transformed color's contrast
against the background luminance is below `TARGET_CONTRAST` — run the
iterative adjuster.  The initial luminance and contrast of lines 353-359 are
dead values overwritten on line 381 and are elided. -/
def processTextInitial {Str C : Type} (M : CuloriModel Str C) (isButton : Prop)
    [Decidable isButton] (originalColor : Str) (backgroundLuminance : ℚ) :
    Option Oklch :=
  match M.parse originalColor with
  | none => none
  | some parsedColor =>
    if 1/2 < (M.alphaOf parsedColor).getD 1 then
      match M.toOklch parsedColor with
      | none => none
      | some initialOklchText =>
        let newL := max 0 (min 1 (1 - initialOklchText.l))
        let newC := max 0 (initialOklchText.c * (if isButton then 1/2 else 3/10))
        let newH := initialOklchText.h.getD 0
        let transformed : Oklch := ⟨newL, newC, some newH, none⟩
        let transformedLum := getRelativeLuminance M.rgbOf transformed
        let currentContrast := calculateContrast transformedLum backgroundLuminance
        some (if currentContrast < TARGET_CONTRAST then
            adjustTextLightnessForContrast M.rgbOf transformed backgroundLuminance
              TARGET_CONTRAST
          else transformed)
    else none

/-- Text-color processing of the incremental pass's write phase
(lines 818-843): invert and desaturate, then clamp the lightness to at least
0.75 against a dark effective background (`finalBackgroundL < 0.5`) or to at
most 0.25 against a light one. -/
def processTextIncremental {Str C : Type} (M : CuloriModel Str C)
    (isButton : Prop) [Decidable isButton] (originalColor : Str)
    (finalBackgroundL : ℚ) : Option Oklch :=
  match M.parse originalColor with
  | none => none
  | some parsedColor =>
    if 1/2 < (M.alphaOf parsedColor).getD 1 then
      match M.toOklch parsedColor with
      | none => none
      | some oklchColor =>
        let newL := max 0 (min 1 (1 - oklchColor.l))
        let newC := max 0 (oklchColor.c * (if isButton then 1/2 else 3/10))
        let newH := oklchColor.h.getD 0
        let contrastTarget : ℚ := if finalBackgroundL < 1/2 then 3/4 else 1/4
        let newL2 := if finalBackgroundL < 1/2 then max newL contrastTarget
          else min newL contrastTarget
        some ⟨newL2, newC, some newH, none⟩
    else none

/-- Fill-color processing (lines 407-446; duplicated on lines 845-884): a
parse failure corresponds to the enclosing `catch`. -/
def processFill {Str C : Type} (M : CuloriModel Str C) (isButton : Prop)
    [Decidable isButton] (originalFill : Option Str) (finalBackgroundL : ℚ) :
    Option Oklch :=
  match originalFill with
  | none => none
  | some fillStr =>
    match M.parse fillStr with
    | none => none
    | some parsedFill =>
      if 1/10 < (M.alphaOf parsedFill).getD 1 then
        match M.toOklch parsedFill with
        | none => none
        | some oklchFill =>
          let newL := max 0 (min 1 (1 - oklchFill.l))
          let newC := max 0 (oklchFill.c * (if isButton then 4/10 else 3/10))
          let newH := oklchFill.h.getD 0
          let svgContrastTargetL : ℚ := if finalBackgroundL < 1/2 then 7/10 else 3/10
          let newL2 := if finalBackgroundL < 1/2 then max newL svgContrastTargetL
            else min newL svgContrastTargetL
          some ⟨newL2, newC, some newH, none⟩
      else none

/-- Stroke-color processing (lines 449-487; duplicated on lines 886-924). -/
def processStroke {Str C : Type} (M : CuloriModel Str C) (isButton : Prop)
    [Decidable isButton] (originalStroke : Option Str) (finalBackgroundL : ℚ) :
    Option Oklch :=
  match originalStroke with
  | none => none
  | some strokeStr =>
    match M.parse strokeStr with
    | none => none
    | some parsedStroke =>
      if 1/10 < (M.alphaOf parsedStroke).getD 1 then
        match M.toOklch parsedStroke with
        | none => none
        | some oklchStroke =>
          let newL := max 0 (min 1 (1 - oklchStroke.l))
          let newC := max 0 (oklchStroke.c * (if isButton then 3/10 else 2/10))
          let newH := oklchStroke.h.getD 0
          let svgContrastTargetL : ℚ := if finalBackgroundL < 1/2 then 7/10 else 3/10
          let newL2 := if finalBackgroundL < 1/2 then max newL svgContrastTargetL
            else min newL svgContrastTargetL
          some ⟨newL2, newC, some newH, none⟩
      else none

/-- Application of the computed overrides to one element's inline style
(shared body of lines 505-525 and 941-961): each present override is written
through `setProperty` with priority `important`, except that the background
is suppressed for a small element.  Returns the updated style attribute
together with the `stylesApplied` flag. -/
def applyProps {Str C : Type} (M : CuloriModel Str C) (sty : StyleAttr Str)
    (isSmallElement : Prop) [Decidable isSmallElement]
    (newBg newColor newFill newStroke : Option Oklch) : StyleAttr Str × Bool :=
  let s0 := (sty, false)
  let s1 := match newBg with
    | some cb => if isSmallElement then s0 else ({ s0.1 with bg := some (M.formatHex cb) }, true)
    | none => s0
  let s2 := match newColor with
    | some cc2 => ({ s1.1 with color := some (M.formatHex cc2) }, true)
    | none => s1
  let s3 := match newFill with
    | some cf => ({ s2.1 with fill := some (M.formatHex cf) }, true)
    | none => s2
  let s4 := match newStroke with
    | some cs2 => ({ s3.1 with stroke := some (M.formatHex cs2) }, true)
    | none => s3
  s4

/-- The per-element style application step (lines 491-531; duplicated on
lines 926-966): only `HTMLElement`s and `SVGElement`s are touched; the
original inline style is snapshotted into the WeakMap unless the element
already carries the marker; the small-element check applies only to
`HTMLElement`s (`offsetWidth`/`offsetHeight` do not exist on `SVGElement`);
the marker is set iff some style was applied (line 528-530). -/
def applyWriteElem {Str C : Type} (M : CuloriModel Str C) (e : PElem Str)
    (newBg newColor newFill newStroke : Option Oklch) : PElem Str :=
  if e.kind = EKind.html ∨ e.kind = EKind.svg then
    let snap2 := if e.marker = true then e.snap else some (styleAttrGet e.sty)
    let sa := applyProps M e.sty
      (e.kind = EKind.html ∧ (e.offsetHeight < 24 ∨ e.offsetWidth < 24))
      newBg newColor newFill newStroke
    { e with sty := sa.1, snap := snap2, marker := sa.2 || e.marker }
  else e

/-- Write phase of the initial pass for a single element, given its read
record (lines 288-535): decisions, then application. -/
def writeElemFromRecord {Str C : Type} (M : CuloriModel Str C) (e : PElem Str)
    (data : StyleRecord Str) : PElem Str :=
  let bgRes := processBg M (e.tagName = "BUTTON") data.originalBg
  let backgroundLuminance := bgRes.backgroundLuminance.getD
    (if bgRes.finalBackgroundL < 1/2 then 1/10 else 9/10)
  let newColor := processTextInitial M (e.tagName = "BUTTON") data.originalColor
    backgroundLuminance
  let newFill := processFill M (e.tagName = "BUTTON") data.originalFill
    bgRes.finalBackgroundL
  let newStroke := processStroke M (e.tagName = "BUTTON") data.originalStroke
    bgRes.finalBackgroundL
  applyWriteElem M e bgRes.newBg newColor newFill newStroke

/-- One element of the initial full-document pass: read then write. -/
def writeElemInitial {Str C : Type} (M : CuloriModel Str C) (e : PElem Str) :
    PElem Str :=
  writeElemFromRecord M e (readElem e)

/-- Write phase of the incremental mutation pass for a single element, given
its read record (lines 747-970).  It differs from the initial pass only in
the text-color computation, which clamps against `finalBackgroundL` instead
of running the iterative adjuster; the `backgroundLuminance` computed on
lines 792-816 is never consulted by this pass's writes. -/
def writeElemIncrFromRecord {Str C : Type} (M : CuloriModel Str C)
    (e : PElem Str) (data : StyleRecord Str) : PElem Str :=
  let bgRes := processBg M (e.tagName = "BUTTON") data.originalBg
  let newColor := processTextIncremental M (e.tagName = "BUTTON")
    data.originalColor bgRes.finalBackgroundL
  let newFill := processFill M (e.tagName = "BUTTON") data.originalFill
    bgRes.finalBackgroundL
  let newStroke := processStroke M (e.tagName = "BUTTON") data.originalStroke
    bgRes.finalBackgroundL
  applyWriteElem M e bgRes.newBg newColor newFill newStroke

/-- One element of the incremental mutation pass (`applyStylesToElementAndChildren`,
lines 699-976): read then write. -/
def writeElemIncremental {Str C : Type} (M : CuloriModel Str C) (e : PElem Str) :
    PElem Str :=
  writeElemIncrFromRecord M e (readElem e)

/-- Identifier of the engine's single `CSSStyleSheet` inside
`document.adoptedStyleSheets`; other entries of the list belong to the page. -/
def dynamicSheetId : Nat := 0

/-- Whole per-page engine state: whether the `CSSStyleSheet` constructor
succeeded at startup (lines 168-174), the sheet's current content (as its
Strategy 1 rule list), the adopted-stylesheets list, the body marker class,
the mutation observer handle plus a count of observers ever created, the
`localStorage` flag, and the elements matched by the Strategy 2 selector. -/
structure Engine (Str : Type) where
  sheetExists : Bool
  sheetContent : Option (List (String × Str))
  adopted : List Nat
  bodyClass : Bool
  observer : Bool
  observersCreated : Nat
  cacheEnabled : Bool
  elems : List (PElem Str)
deriving DecidableEq

/-- Function `applyDarkModeStyles` (lines 179-614): early return when the
sheet could not be constructed; add the body class; generate Strategy 1
rules; run Strategy 2 as a read phase over all elements followed by a write
phase (each element's computed record depends only on that element, so the
source's read-all-then-write-all batching coincides with this zip); replace
the sheet content and adopt the sheet if not already adopted; persist the
cache flag; install the mutation observer only if none is installed. -/
def applyDarkModeStyles {Str C : Type} (M : CuloriModel Str C) (env : Env Str)
    (s : Engine Str) : Engine Str :=
  if s.sheetExists = true then
    let overrideRules := strategy1Rules M env
    let records := s.elems.map readElem
    let elems2 := List.zipWith (writeElemFromRecord M) s.elems records
    { s with
      bodyClass := true
      elems := elems2
      sheetContent := some overrideRules
      adopted := if dynamicSheetId ∈ s.adopted then s.adopted
        else s.adopted ++ [dynamicSheetId]
      cacheEnabled := true
      observer := true
      observersCreated := if s.observer = true then s.observersCreated
        else s.observersCreated + 1 }
  else s

/-- Rollback of a single element carrying the marker (lines 634-667): only
`HTMLElement`s and `SVGElement`s are touched (the `instanceof` gate on
line 635; a marked element of any other kind is skipped entirely).  For a
gated element: restore the snapshotted attribute value verbatim, or remove
the attribute if the snapshot records that there was none; delete the
WeakMap entry; an element with the marker but no snapshot falls back to
clearing the attribute (lines 650-661); finally the marker is removed. -/
def restoreElem {Str : Type} (e : PElem Str) : PElem Str :=
  if e.marker = true then
    if e.kind = EKind.html ∨ e.kind = EKind.svg then
      match e.snap with
      | some (some v) => { e with sty := v, snap := none, marker := false }
      | some none => { e with sty := emptyStyle, snap := none, marker := false }
      | none => { e with sty := emptyStyle, marker := false }
    else e
  else e

/-- Function `removeDarkModeStyles` (lines 619-692): disconnect the observer,
restore every element carrying the marker, remove the body class, detach the
engine's sheet if it is adopted, persist the cache flag.  The sheet content
itself is not cleared by the source. -/
def removeDarkModeStyles {Str : Type} (s : Engine Str) : Engine Str :=
  { s with
    observer := false
    elems := s.elems.map restoreElem
    bodyClass := false
    adopted := if s.sheetExists = true ∧ dynamicSheetId ∈ s.adopted
      then s.adopted.filter (· != dynamicSheetId) else s.adopted
    cacheEnabled := false }

/-- Concrete instantiation of the culori interface, used to run the engine on
explicit inputs: a color string is represented by its parsed oklch value
(`parse` and the oklch conversion are the identity-like embeddings), and the
rgb reconstruction is achromatic, `r = g = b = l`, for which the weighted sum
in `getRelativeLuminance` is exactly `l` since the three weights add up to 1.
`formatHex` drops the alpha channel, as hex formatting does. -/
def ciM : CuloriModel Oklch Oklch :=
  { parse := some
    alphaOf := Oklch.alpha
    toOklch := some
    rgbOf := fun cc => some ⟨cc.l, cc.l, cc.l⟩
    formatHex := fun cc => { cc with alpha := none } }

/-- A page with no resolvable root custom properties. -/
def envEmpty : Env Oklch := ⟨fun _ => none⟩

/-- A plain big paragraph element with a fully transparent computed
background and a fully transparent computed text color, no inline style, no
marker and no snapshot; concrete inputs below are variations of it. -/
def elem0 : PElem Oklch :=
  { kind := EKind.html
    tagName := "P"
    offsetWidth := 100
    offsetHeight := 100
    hasDirectText := true
    baseBg := ⟨1, 0, none, some 0⟩
    baseColor := ⟨1/2, 0, none, some 0⟩
    baseFill := none
    baseStroke := none
    sty := emptyStyle
    marker := false
    snap := none }

/-- Engine state holding the given elements, with a constructed sheet, before
any activation. -/
def engine0 (es : List (PElem Oklch)) : Engine Oklch :=
  { sheetExists := true
    sheetContent := none
    adopted := []
    bodyClass := false
    observer := false
    observersCreated := 0
    cacheEnabled := false
    elems := es }

/-! Lemmas about the contrast-adjustment loop. -/

/-- Step size the source's loop uses for the move with iteration counter `i`:
0.05 for the first seven moves, 0.025 afterwards (the shrink on line 131
fires at the end of the iteration whose counter is 6). -/
def schedStep (i : Nat) : ℚ := if i ≤ 6 then 1/20 else 1/40

theorem adjustLoop_zero (rgbOf : Oklch → Option Rgb) (c : ℚ) (h : Option ℚ)
    (b tg : ℚ) (d : Bool) (i : Nat) (l tl st : ℚ) :
    adjustLoop rgbOf c h b tg d 0 i l tl st = ⟨l, tl, []⟩ := rfl

theorem adjustLoop_succ_neg (rgbOf : Oklch → Option Rgb) (c : ℚ) (h : Option ℚ)
    (b tg : ℚ) (d : Bool) (fuel i : Nat) (l tl st : ℚ)
    (hc : ¬ calculateContrast b tl < tg) :
    adjustLoop rgbOf c h b tg d (fuel + 1) i l tl st = ⟨l, tl, []⟩ := by
  rw [adjustLoop]
  simp [hc]

theorem adjustLoop_succ_pos (rgbOf : Oklch → Option Rgb) (c : ℚ) (h : Option ℚ)
    (b tg : ℚ) (d : Bool) (fuel i : Nat) (l tl st : ℚ)
    (hc : calculateContrast b tl < tg) :
    adjustLoop rgbOf c h b tg d (fuel + 1) i l tl st
      = (fun r : AdjustResult => (⟨r.l, r.textLum, st :: r.steps⟩ : AdjustResult))
          (adjustLoop rgbOf c h b tg d fuel (i + 1)
            (if d = true then min 1 (l + st) else max 0 (l - st))
            (if getRelativeLuminance rgbOf
                  ⟨if d = true then min 1 (l + st) else max 0 (l - st), c, h, none⟩ = 0
              then tl
              else getRelativeLuminance rgbOf
                ⟨if d = true then min 1 (l + st) else max 0 (l - st), c, h, none⟩)
            (if i > 5 then 1/40 else st)) := by
  rw [adjustLoop]
  simp [hc]

theorem adjustLoop_length_le (rgbOf : Oklch → Option Rgb) (c : ℚ) (h : Option ℚ)
    (b tg : ℚ) (d : Bool) :
    ∀ (fuel i : Nat) (l tl st : ℚ),
      (adjustLoop rgbOf c h b tg d fuel i l tl st).steps.length ≤ fuel := by
  intro fuel
  induction fuel with
  | zero => intro i l tl st; simp [adjustLoop_zero]
  | succ fuel ih =>
    intro i l tl st
    by_cases hc : calculateContrast b tl < tg
    · rw [adjustLoop_succ_pos rgbOf c h b tg d fuel i l tl st hc]
      simpa using ih (i + 1) _ _ _
    · rw [adjustLoop_succ_neg rgbOf c h b tg d fuel i l tl st hc]
      simp

theorem adjustLoop_get_sched (rgbOf : Oklch → Option Rgb) (c : ℚ) (h : Option ℚ)
    (b tg : ℚ) (d : Bool) :
    ∀ (fuel i : Nat) (l tl : ℚ) (j : Nat),
      j < (adjustLoop rgbOf c h b tg d fuel i l tl (schedStep i)).steps.length →
      (adjustLoop rgbOf c h b tg d fuel i l tl (schedStep i)).steps.get? j
        = some (schedStep (i + j)) := by
  intro fuel
  induction fuel with
  | zero => intro i l tl j hj; rw [adjustLoop_zero] at hj; simp at hj
  | succ fuel ih =>
    intro i l tl j hj
    by_cases hc : calculateContrast b tl < tg
    · have hstep : (if i > 5 then (1 : ℚ)/40 else schedStep i) = schedStep (i + 1) := by
        simp only [schedStep]
        split_ifs <;> first | rfl | omega
      rw [adjustLoop_succ_pos rgbOf c h b tg d fuel i l tl (schedStep i) hc] at hj ⊢
      rw [hstep] at hj ⊢
      rcases j with _ | j
      · rfl
      · have h4 : i + (j + 1) = (i + 1) + j := by omega
        rw [h4]
        exact ih (i + 1) _ _ j (Nat.lt_of_succ_lt_succ hj)
    · rw [adjustLoop_succ_neg rgbOf c h b tg d fuel i l tl (schedStep i) hc] at hj
      simp at hj

theorem adjustLoop_early_stop (rgbOf : Oklch → Option Rgb) (c : ℚ) (h : Option ℚ)
    (b tg : ℚ) (d : Bool) :
    ∀ (fuel i : Nat) (l tl st : ℚ),
      (adjustLoop rgbOf c h b tg d fuel i l tl st).steps.length < fuel →
      tg ≤ calculateContrast b (adjustLoop rgbOf c h b tg d fuel i l tl st).textLum := by
  intro fuel
  induction fuel with
  | zero => intro i l tl st hlt; simp [adjustLoop_zero] at hlt
  | succ fuel ih =>
    intro i l tl st hlt
    by_cases hc : calculateContrast b tl < tg
    · rw [adjustLoop_succ_pos rgbOf c h b tg d fuel i l tl st hc] at hlt ⊢
      exact ih (i + 1) _ _ _ (by simpa using Nat.lt_of_succ_lt_succ (by simpa using hlt))
    · rw [adjustLoop_succ_neg rgbOf c h b tg d fuel i l tl st hc]
      exact le_of_not_lt hc

theorem adjustLoop_l_bounds (rgbOf : Oklch → Option Rgb) (c : ℚ) (h : Option ℚ)
    (b tg : ℚ) (d : Bool) :
    ∀ (fuel i : Nat) (l tl st : ℚ), 0 < st → 0 ≤ l → l ≤ 1 →
      (d = true → l ≤ (adjustLoop rgbOf c h b tg d fuel i l tl st).l)
      ∧ (d = false → (adjustLoop rgbOf c h b tg d fuel i l tl st).l ≤ l)
      ∧ 0 ≤ (adjustLoop rgbOf c h b tg d fuel i l tl st).l
      ∧ (adjustLoop rgbOf c h b tg d fuel i l tl st).l ≤ 1 := by
  intro fuel
  induction fuel with
  | zero =>
    intro i l tl st _ h0 h1
    refine ⟨fun _ => ?_, fun _ => ?_, ?_, ?_⟩ <;> simp [adjustLoop_zero, h0, h1]
  | succ fuel ih =>
    intro i l tl st hst h0 h1
    by_cases hc : calculateContrast b tl < tg
    · rw [adjustLoop_succ_pos rgbOf c h b tg d fuel i l tl st hc]
      have hst2 : 0 < (if i > 5 then (1 : ℚ)/40 else st) := by
        split_ifs <;> [norm_num; exact hst]
      have hnewL0 : (0 : ℚ) ≤ (if d = true then min 1 (l + st) else max 0 (l - st)) := by
        split_ifs
        · exact le_min (by norm_num) (by linarith)
        · exact le_max_left _ _
      have hnewL1 : (if d = true then min 1 (l + st) else max 0 (l - st)) ≤ 1 := by
        split_ifs
        · exact min_le_left _ _
        · exact max_le (by norm_num) (by linarith)
      have hb := ih (i + 1) (if d = true then min 1 (l + st) else max 0 (l - st))
        (if getRelativeLuminance rgbOf
              ⟨if d = true then min 1 (l + st) else max 0 (l - st), c, h, none⟩ = 0
          then tl
          else getRelativeLuminance rgbOf
            ⟨if d = true then min 1 (l + st) else max 0 (l - st), c, h, none⟩)
        (if i > 5 then (1 : ℚ)/40 else st) hst2 hnewL0 hnewL1
      refine ⟨fun hd => ?_, fun hd => ?_, by simpa using hb.2.2.1,
        by simpa using hb.2.2.2⟩
      · calc l ≤ min 1 (l + st) := le_min h1 (by linarith)
          _ = (if d = true then min 1 (l + st) else max 0 (l - st)) := by rw [if_pos hd]
          _ ≤ _ := hb.1 hd
      · calc (AdjustResult.l _) ≤ (if d = true then min 1 (l + st) else max 0 (l - st)) :=
            hb.2.1 hd
          _ = max 0 (l - st) := by rw [if_neg (by simp [hd])]
          _ ≤ l := max_le h0 (by linarith)
    · rw [adjustLoop_succ_neg rgbOf c h b tg d fuel i l tl st hc]
      exact ⟨fun _ => le_refl l, fun _ => le_refl l, h0, h1⟩

/-- Concrete input color for exercising the contrast adjuster. -/
def tIn8 : Oklch := ⟨1/5, 0, some 0, none⟩

/-- Concrete input color carrying chroma, hue and alpha. -/
def tIn10 : Oklch := ⟨1/2, 1/10, some 5, some 1⟩

/-- A gamut-respecting rgb conversion used as a witness instantiation. -/
def rgbOfHalf : Oklch → Option Rgb := fun _ => some ⟨1/2, 1/2, 1/2⟩

/-- C8 (counterexample): the claim says the step shrinks to 0.025 after 5
iterations, i.e. from the sixth move on.  In the source the shrink
(line 131, `if (iterations > 5) step = 0.025`) happens after the move of the
iteration whose counter is 6, so the sixth and seventh moves still use 0.05.
On a run that never meets the target (constant luminance `l`, background
luminance 0.2), the implementation ends at lightness
0.2 + 7(0.05) + 3(0.025) = 5/8, while the claimed schedule would end at
0.2 + 5(0.05) + 5(0.025) = 23/40. -/
theorem step_schedule_counterexample :
    adjustTextLightnessForContrast ciM.rgbOf tIn8 (1/5) (9/2)
        ≠ adjustClaimed ciM.rgbOf tIn8 (1/5) (9/2)
    ∧ (adjustTextLightnessForContrast ciM.rgbOf tIn8 (1/5) (9/2)).l = 5/8
    ∧ (adjustClaimed ciM.rgbOf tIn8 (1/5) (9/2)).l = 23/40 := by
  refine ⟨?_, ?_, ?_⟩ <;>
    norm_num [adjustTextLightnessForContrast, adjustClaimed, adjustRun,
      adjustLoop, adjustLoopClaimed, getRelativeLuminance, calculateContrast,
      ciM, tIn8, MAX_CONTRAST_ITERATIONS]

/-- C8 (amended): for every rgb conversion, candidate color, background
luminance and target, the loop of `adjustTextLightnessForContrast` performs
at most `MAX_CONTRAST_ITERATIONS` (10) iterations; the step of the j-th move
is 0.05 for the first seven moves and 0.025 for the remaining three (not
0.05 for five then 0.025, as claimed); if the contrast target is already met
the loop performs no iteration; if the loop stopped before exhausting its
budget the achieved contrast meets the target; the lightness moves upward
when the background luminance is below 0.5 and downward otherwise; and the
function always returns, with a lightness staying in [0,1]. -/
theorem contrast_loop_amended (rgbOf : Oklch → Option Rgb) (t : Oklch)
    (backgroundLuminance targetContrast : ℚ) (h0 : 0 ≤ t.l) (h1 : t.l ≤ 1) :
    (adjustRun rgbOf t backgroundLuminance targetContrast).steps.length
        ≤ MAX_CONTRAST_ITERATIONS
    ∧ (∀ j : Nat,
        j < (adjustRun rgbOf t backgroundLuminance targetContrast).steps.length →
        (adjustRun rgbOf t backgroundLuminance targetContrast).steps.get? j
          = some (if j ≤ 6 then (1 : ℚ)/20 else 1/40))
    ∧ (targetContrast ≤ calculateContrast backgroundLuminance
          (getRelativeLuminance rgbOf ⟨t.l, t.c, t.h, none⟩) →
        (adjustRun rgbOf t backgroundLuminance targetContrast).steps = [])
    ∧ ((adjustRun rgbOf t backgroundLuminance targetContrast).steps.length
          < MAX_CONTRAST_ITERATIONS →
        targetContrast ≤ calculateContrast backgroundLuminance
          (adjustRun rgbOf t backgroundLuminance targetContrast).textLum)
    ∧ (backgroundLuminance < 1/2 →
        t.l ≤ (adjustTextLightnessForContrast rgbOf t backgroundLuminance
          targetContrast).l)
    ∧ (1/2 ≤ backgroundLuminance →
        (adjustTextLightnessForContrast rgbOf t backgroundLuminance
          targetContrast).l ≤ t.l)
    ∧ 0 ≤ (adjustTextLightnessForContrast rgbOf t backgroundLuminance
        targetContrast).l
    ∧ (adjustTextLightnessForContrast rgbOf t backgroundLuminance
        targetContrast).l ≤ 1 := by
  have hsched : (1 : ℚ)/20 = schedStep 0 := by norm_num [schedStep]
  have hbounds := adjustLoop_l_bounds rgbOf t.c t.h backgroundLuminance
    targetContrast (decide (backgroundLuminance < 1/2)) MAX_CONTRAST_ITERATIONS 0
    t.l (getRelativeLuminance rgbOf ⟨t.l, t.c, t.h, none⟩) (1/20) (by norm_num) h0 h1
  refine ⟨?_, ?_, ?_, ?_, ?_, ?_, ?_, ?_⟩
  · exact adjustLoop_length_le rgbOf t.c t.h backgroundLuminance targetContrast
      _ MAX_CONTRAST_ITERATIONS 0 _ _ _
  · intro j hj
    have hg := adjustLoop_get_sched rgbOf t.c t.h backgroundLuminance
      targetContrast (decide (backgroundLuminance < 1/2)) MAX_CONTRAST_ITERATIONS 0
      t.l (getRelativeLuminance rgbOf ⟨t.l, t.c, t.h, none⟩) j
    rw [adjustRun, hsched]
    rw [adjustRun, hsched] at hj
    rw [hg hj]
    simp [schedStep]
  · intro htarget
    rw [adjustRun, show MAX_CONTRAST_ITERATIONS = 9 + 1 from rfl,
      adjustLoop_succ_neg _ _ _ _ _ _ _ _ _ _ _ (not_lt.mpr htarget)]
  · intro hlt
    exact adjustLoop_early_stop rgbOf t.c t.h backgroundLuminance targetContrast
      _ MAX_CONTRAST_ITERATIONS 0 _ _ _ hlt
  · intro hdark
    exact hbounds.1 (by simpa using hdark)
  · intro hlight
    exact hbounds.2.1 (by simpa using not_lt.mpr hlight)
  · exact hbounds.2.2.1
  · exact hbounds.2.2.2

/-- C8 (witness): the amended theorem at a concrete run. -/
theorem contrast_loop_amended_witness :
    (adjustRun ciM.rgbOf tIn8 (1/5) (9/2)).steps.length ≤ MAX_CONTRAST_ITERATIONS
    ∧ 0 ≤ (adjustTextLightnessForContrast ciM.rgbOf tIn8 (1/5) (9/2)).l := by
  have h := contrast_loop_amended ciM.rgbOf tIn8 (1/5) (9/2)
    (by norm_num [tIn8]) (by norm_num [tIn8])
  exact ⟨h.1, h.2.2.2.2.2.2.1⟩

/-- C9 (confirmed): `getRelativeLuminance` computes
`0.2126 r + 0.7152 g + 0.0722 b` over the rgb reconstruction of the
perceptual color (the defaulted-hue copy of the input, not the raw channels),
and — whenever the conversion produces channels inside [0,1] — the result
lies in [0,1].  The rgb conversion itself belongs to the external culori
library and is quantified over. -/
theorem relative_luminance_range (rgbOf : Oklch → Option Rgb)
    (hgamut : ∀ cc rgb, rgbOf cc = some rgb →
      0 ≤ rgb.r ∧ rgb.r ≤ 1 ∧ 0 ≤ rgb.g ∧ rgb.g ≤ 1 ∧ 0 ≤ rgb.b ∧ rgb.b ≤ 1)
    (cc : Oklch) :
    0 ≤ getRelativeLuminance rgbOf cc ∧ getRelativeLuminance rgbOf cc ≤ 1
    ∧ ∀ rgb, rgbOf { cc with h := some (cc.h.getD 0) } = some rgb →
        getRelativeLuminance rgbOf cc
          = 2126/10000 * rgb.r + 7152/10000 * rgb.g + 722/10000 * rgb.b := by
  rcases hr : rgbOf { cc with h := some (cc.h.getD 0) } with _ | rgb
  · refine ⟨?_, ?_, ?_⟩
    · simp [getRelativeLuminance, hr]
    · simp [getRelativeLuminance, hr]
    · intro rgb hrgb
      exact absurd hrgb (by simp)
  · obtain ⟨hr0, hr1, hg0, hg1, hb0, hb1⟩ := hgamut _ _ hr
    have hval : getRelativeLuminance rgbOf cc
        = 2126/10000 * rgb.r + 7152/10000 * rgb.g + 722/10000 * rgb.b := by
      simp [getRelativeLuminance, hr]
    refine ⟨?_, ?_, ?_⟩
    · rw [hval]
      have t1 : (0 : ℚ) ≤ 2126/10000 * rgb.r := by positivity
      have t2 : (0 : ℚ) ≤ 7152/10000 * rgb.g := by positivity
      have t3 : (0 : ℚ) ≤ 722/10000 * rgb.b := by positivity
      linarith
    · rw [hval]
      have t1 : (2126 : ℚ)/10000 * rgb.r ≤ 2126/10000 := by nlinarith
      have t2 : (7152 : ℚ)/10000 * rgb.g ≤ 7152/10000 := by nlinarith
      have t3 : (722 : ℚ)/10000 * rgb.b ≤ 722/10000 := by nlinarith
      linarith
    · intro rgb2 hrgb2
      injection hrgb2 with h2
      rw [← h2]
      exact hval

/-- C9 (witness): the range theorem at a concrete conversion and color. -/
theorem relative_luminance_range_witness :
    0 ≤ getRelativeLuminance rgbOfHalf ⟨1/2, 0, none, none⟩
    ∧ getRelativeLuminance rgbOfHalf ⟨1/2, 0, none, none⟩ ≤ 1 := by
  have h := relative_luminance_range rgbOfHalf
    (fun cc rgb hr => by
      injection hr with h2
      rw [← h2]
      norm_num)
    ⟨1/2, 0, none, none⟩
  exact ⟨h.1, h.2.1⟩

/-- C10 (counterexample): the claim says only the lightness field can differ
between the input and output of `adjustTextLightnessForContrast`; but the
function clones only `l`, `c`, `h` (lines 95-100), so an input alpha is
dropped. -/
theorem adjust_frame_counterexample :
    (adjustTextLightnessForContrast ciM.rgbOf tIn10 (9/10) (9/2)).alpha
      ≠ tIn10.alpha := by
  simp [adjustTextLightnessForContrast, tIn10]

/-- C10 (amended): the output of `adjustTextLightnessForContrast` keeps the
input's chroma and hue exactly, drops the alpha (the clone holds only `l`,
`c`, `h`), and — when the input lightness lies in [0,1] — the output
lightness also lies in [0,1]. -/
theorem adjust_frame_amended (rgbOf : Oklch → Option Rgb) (t : Oklch)
    (backgroundLuminance targetContrast : ℚ) :
    (adjustTextLightnessForContrast rgbOf t backgroundLuminance targetContrast).c
        = t.c
    ∧ (adjustTextLightnessForContrast rgbOf t backgroundLuminance targetContrast).h
        = t.h
    ∧ (adjustTextLightnessForContrast rgbOf t backgroundLuminance
        targetContrast).alpha = none
    ∧ (0 ≤ t.l → t.l ≤ 1 →
        0 ≤ (adjustTextLightnessForContrast rgbOf t backgroundLuminance
            targetContrast).l
        ∧ (adjustTextLightnessForContrast rgbOf t backgroundLuminance
            targetContrast).l ≤ 1) := by
  refine ⟨rfl, rfl, rfl, fun h0 h1 => ?_⟩
  have hbounds := adjustLoop_l_bounds rgbOf t.c t.h backgroundLuminance
    targetContrast (decide (backgroundLuminance < 1/2)) MAX_CONTRAST_ITERATIONS 0
    t.l (getRelativeLuminance rgbOf ⟨t.l, t.c, t.h, none⟩) (1/20) (by norm_num) h0 h1
  exact ⟨hbounds.2.2.1, hbounds.2.2.2⟩

/-- C10 (witness): the amended frame theorem at a concrete input. -/
theorem adjust_frame_amended_witness :
    (adjustTextLightnessForContrast ciM.rgbOf tIn10 (9/10) (9/2)).c = tIn10.c
    ∧ 0 ≤ (adjustTextLightnessForContrast ciM.rgbOf tIn10 (9/10) (9/2)).l := by
  have h := adjust_frame_amended ciM.rgbOf tIn10 (9/10) (9/2)
  exact ⟨h.1, (h.2.2.2 (by norm_num [tIn10]) (by norm_num [tIn10])).1⟩

/-! Accessors naming the write-phase decisions of a single element, and
lemmas about the style-application and restore steps. -/

/-- Background decision of either pass for an element. -/
def bgResOf {Str C : Type} (M : CuloriModel Str C) (e : PElem Str) : BgResult :=
  processBg M (e.tagName = "BUTTON") (readElem e).originalBg

/-- Text decision of the initial pass for an element. -/
def newColorInitOf {Str C : Type} (M : CuloriModel Str C) (e : PElem Str) :
    Option Oklch :=
  processTextInitial M (e.tagName = "BUTTON") (readElem e).originalColor
    ((bgResOf M e).backgroundLuminance.getD
      (if (bgResOf M e).finalBackgroundL < 1/2 then 1/10 else 9/10))

/-- Text decision of the incremental pass for an element. -/
def newColorIncrOf {Str C : Type} (M : CuloriModel Str C) (e : PElem Str) :
    Option Oklch :=
  processTextIncremental M (e.tagName = "BUTTON") (readElem e).originalColor
    (bgResOf M e).finalBackgroundL

/-- Fill decision of either pass for an element. -/
def newFillOf {Str C : Type} (M : CuloriModel Str C) (e : PElem Str) :
    Option Oklch :=
  processFill M (e.tagName = "BUTTON") (readElem e).originalFill
    (bgResOf M e).finalBackgroundL

/-- Stroke decision of either pass for an element. -/
def newStrokeOf {Str C : Type} (M : CuloriModel Str C) (e : PElem Str) :
    Option Oklch :=
  processStroke M (e.tagName = "BUTTON") (readElem e).originalStroke
    (bgResOf M e).finalBackgroundL

theorem writeElemInitial_eq {Str C : Type} (M : CuloriModel Str C) (e : PElem Str) :
    writeElemInitial M e = applyWriteElem M e (bgResOf M e).newBg
      (newColorInitOf M e) (newFillOf M e) (newStrokeOf M e) := rfl

theorem writeElemIncremental_eq {Str C : Type} (M : CuloriModel Str C)
    (e : PElem Str) :
    writeElemIncremental M e = applyWriteElem M e (bgResOf M e).newBg
      (newColorIncrOf M e) (newFillOf M e) (newStrokeOf M e) := rfl

theorem styleAttrGet_eq_none {Str : Type} (st : StyleAttr Str)
    (hnone : styleAttrGet st = none) : st = emptyStyle := by
  by_cases hp : st.base.isNone ∧ st.bg.isNone ∧ st.color.isNone ∧ st.fill.isNone
      ∧ st.stroke.isNone
  · obtain ⟨h1, h2, h3, h4, h5⟩ := hp
    cases st
    simp_all [Option.isNone_iff_eq_none, emptyStyle]
  · rw [styleAttrGet, if_neg hp] at hnone
    exact absurd hnone (by simp)

theorem styleAttrGet_eq_some {Str : Type} (st v : StyleAttr Str)
    (hsome : styleAttrGet st = some v) : v = st := by
  rw [styleAttrGet] at hsome
  split_ifs at hsome
  injection hsome with h2
  exact h2.symm

theorem applyProps_snd_false {Str C : Type} (M : CuloriModel Str C)
    (sty : StyleAttr Str) (sm : Prop) [Decidable sm]
    (nb nc nf ns : Option Oklch)
    (hfalse : (applyProps M sty sm nb nc nf ns).2 = false) :
    (applyProps M sty sm nb nc nf ns).1 = sty := by
  rcases nb with _ | cb <;> rcases nc with _ | cc2 <;> rcases nf with _ | cf <;>
    rcases ns with _ | cs2 <;> by_cases hsm : sm <;>
    simp_all [applyProps]

theorem applyProps_bg_of_small {Str C : Type} (M : CuloriModel Str C)
    (sty : StyleAttr Str) (sm : Prop) [Decidable sm]
    (nb nc nf ns : Option Oklch) (hsm : sm) :
    (applyProps M sty sm nb nc nf ns).1.bg = sty.bg := by
  rcases nb with _ | cb <;> rcases nc with _ | cc2 <;> rcases nf with _ | cf <;>
    rcases ns with _ | cs2 <;> simp [applyProps, hsm]

theorem applyWriteElem_not_gate {Str C : Type} (M : CuloriModel Str C)
    (e : PElem Str) (nb nc nf ns : Option Oklch)
    (hg : ¬ (e.kind = EKind.html ∨ e.kind = EKind.svg)) :
    applyWriteElem M e nb nc nf ns = e := by
  rw [applyWriteElem, if_neg hg]

theorem applyWriteElem_gate {Str C : Type} (M : CuloriModel Str C)
    (e : PElem Str) (nb nc nf ns : Option Oklch)
    (hg : e.kind = EKind.html ∨ e.kind = EKind.svg) :
    applyWriteElem M e nb nc nf ns = { e with
      sty := (applyProps M e.sty
        (e.kind = EKind.html ∧ (e.offsetHeight < 24 ∨ e.offsetWidth < 24))
        nb nc nf ns).1
      snap := if e.marker = true then e.snap else some (styleAttrGet e.sty)
      marker := (applyProps M e.sty
        (e.kind = EKind.html ∧ (e.offsetHeight < 24 ∨ e.offsetWidth < 24))
        nb nc nf ns).2 || e.marker } := by
  rw [applyWriteElem, if_pos hg]

/-- Restoring an element right after a write pass, starting from an unmarked
element, recovers the exact pre-pass inline style attribute state. -/
theorem restore_applyWriteElem {Str C : Type} (M : CuloriModel Str C)
    (e : PElem Str) (nb nc nf ns : Option Oklch) (hm : e.marker = false) :
    (restoreElem (applyWriteElem M e nb nc nf ns)).sty = e.sty := by
  by_cases hg : e.kind = EKind.html ∨ e.kind = EKind.svg
  · rw [applyWriteElem_gate M e nb nc nf ns hg, hm]
    by_cases ha : (applyProps M e.sty
        (e.kind = EKind.html ∧ (e.offsetHeight < 24 ∨ e.offsetWidth < 24))
        nb nc nf ns).2 = true
    · rcases hsg : styleAttrGet e.sty with _ | v
      · have hempty := styleAttrGet_eq_none e.sty hsg
        simp [restoreElem, ha, hg]
        exact hempty.symm
      · have hv := styleAttrGet_eq_some e.sty v hsg
        simp [restoreElem, ha, hg]
        exact hv
    · have ha2 : (applyProps M e.sty
          (e.kind = EKind.html ∧ (e.offsetHeight < 24 ∨ e.offsetWidth < 24))
          nb nc nf ns).2 = false := by
        simpa using ha
      rw [applyProps_snd_false M e.sty _ nb nc nf ns ha2]
      simp [restoreElem, ha2]
  · rw [applyWriteElem_not_gate M e nb nc nf ns hg]
    simp [restoreElem, hm]

theorem applyProps_color {Str C : Type} (M : CuloriModel Str C)
    (sty : StyleAttr Str) (sm : Prop) [Decidable sm]
    (nb nc nf ns : Option Oklch) :
    (applyProps M sty sm nb nc nf ns).1.color
      = match nc with
        | some cc2 => some (M.formatHex cc2)
        | none => sty.color := by
  rcases nb with _ | cb <;> rcases nc with _ | cc2 <;> rcases nf with _ | cf <;>
    rcases ns with _ | cs2 <;> by_cases hsm : sm <;> simp [applyProps, hsm]

theorem zipWith_writeElem {Str C : Type} (M : CuloriModel Str C)
    (l : List (PElem Str)) :
    List.zipWith (writeElemFromRecord M) l (l.map readElem)
      = l.map (writeElemInitial M) := by
  induction l with
  | nil => rfl
  | cons a l ih => simp [ih, writeElemInitial]

/-! Concrete inputs for counterexamples and witnesses. -/

/-- A big paragraph with opaque text of lightness 0.8 on a transparent
background. -/
def elemTextOnly : PElem Oklch := { elem0 with baseColor := ⟨4/5, 0, none, none⟩ }

/-- A big element with an opaque light background and no direct text
content. -/
def elemNoText : PElem Oklch :=
  { elem0 with hasDirectText := false, baseBg := ⟨9/10, 0, none, none⟩ }

/-- A 10 by 10 svg element with an opaque light computed background. -/
def elemSmallSvg : PElem Oklch :=
  { elem0 with
    kind := EKind.svg
    tagName := "svg"
    offsetWidth := 10
    offsetHeight := 10
    baseBg := ⟨9/10, 0, none, none⟩ }

/-- A big element with an opaque light background. -/
def elemOpaqueBg : PElem Oklch := { elem0 with baseBg := ⟨9/10, 0, none, none⟩ }

/-- A big element with an opaque light background and an author-written
inline style attribute. -/
def elemStyled : PElem Oklch :=
  { elem0 with
    baseBg := ⟨9/10, 0, none, none⟩
    sty := { emptyStyle with base := some "color:red" } }

/-- An element already carrying the marker and a snapshot entry. -/
def elemMarked : PElem Oklch := { elem0 with marker := true, snap := some none }

/-! Further lemmas about the write and restore steps. -/

theorem restoreElem_unmarked {Str : Type} (e : PElem Str)
    (hm : e.marker = false) : restoreElem e = e := by
  rw [restoreElem, if_neg (by simp [hm])]

theorem restoreElem_marked {Str : Type} (e : PElem Str)
    (hm : e.marker = true) (hg : e.kind = EKind.html ∨ e.kind = EKind.svg) :
    (restoreElem e).marker = false ∧ (restoreElem e).snap = none := by
  rw [restoreElem, if_pos hm, if_pos hg]
  rcases hsn : e.snap with _ | (_ | v) <;> simp [hsn]

theorem restoreElem_not_gate {Str : Type} (e : PElem Str)
    (hg : ¬ (e.kind = EKind.html ∨ e.kind = EKind.svg)) :
    restoreElem e = e := by
  rw [restoreElem]
  by_cases hm : e.marker = true
  · rw [if_pos hm, if_neg hg]
  · rw [if_neg hm]

theorem applyWriteElem_marker_snap {Str C : Type} (M : CuloriModel Str C)
    (e : PElem Str) (nb nc nf ns : Option Oklch)
    (hms : e.marker = true → e.snap ≠ none) :
    (applyWriteElem M e nb nc nf ns).marker = true →
    (applyWriteElem M e nb nc nf ns).snap ≠ none := by
  by_cases hg : e.kind = EKind.html ∨ e.kind = EKind.svg
  · rw [applyWriteElem_gate M e nb nc nf ns hg]
    by_cases hm : e.marker = true
    · intro _
      simpa [hm] using hms hm
    · have hm2 : e.marker = false := by simpa using hm
      intro _
      simp [hm2]
  · rw [applyWriteElem_not_gate M e nb nc nf ns hg]
    exact hms

theorem applyDark_not_sheet {Str C : Type} (M : CuloriModel Str C)
    (env : Env Str) (s : Engine Str) (hsheet : ¬ s.sheetExists = true) :
    applyDarkModeStyles M env s = s := by
  rw [applyDarkModeStyles, if_neg hsheet]

theorem applyDark_eq {Str C : Type} (M : CuloriModel Str C) (env : Env Str)
    (s : Engine Str) (hsheet : s.sheetExists = true) :
    applyDarkModeStyles M env s = { s with
      bodyClass := true
      elems := s.elems.map (writeElemInitial M)
      sheetContent := some (strategy1Rules M env)
      adopted := if dynamicSheetId ∈ s.adopted then s.adopted
        else s.adopted ++ [dynamicSheetId]
      cacheEnabled := true
      observer := true
      observersCreated := if s.observer = true then s.observersCreated
        else s.observersCreated + 1 } := by
  simp only [applyDarkModeStyles, if_pos hsheet, zipWith_writeElem]

/-- C1 (confirmed): an element touched by the rewriter while unmarked has its
inline style attribute restored exactly — present value or absence — by a
subsequent deactivation; the same holds elementwise for the incremental
pass. -/
theorem activate_deactivate_round_trip {Str C : Type} (M : CuloriModel Str C)
    (env : Env Str) (s : Engine Str) (i : Nat) (hi : i < s.elems.length)
    (hm : (s.elems.get ⟨i, hi⟩).marker = false) :
    ((removeDarkModeStyles (applyDarkModeStyles M env s)).elems.get? i).map
        (fun e => e.sty) = some (s.elems.get ⟨i, hi⟩).sty
    ∧ ∀ e : PElem Str, e.marker = false →
        (restoreElem (writeElemIncremental M e)).sty = e.sty := by
  constructor
  · by_cases hsheet : s.sheetExists = true
    · rw [applyDark_eq M env s hsheet]
      show ((List.map restoreElem (List.map (writeElemInitial M) s.elems)).get? i).map
        (fun e => e.sty) = _
      rw [List.map_map, List.get?_map, List.get?_eq_get hi]
      simp only [Option.map_some', Function.comp]
      rw [writeElemInitial_eq]
      rw [restore_applyWriteElem M _ _ _ _ _ hm]
    · rw [applyDark_not_sheet M env s hsheet]
      show ((List.map restoreElem s.elems).get? i).map (fun e => e.sty) = _
      rw [List.get?_map, List.get?_eq_get hi]
      simp only [Option.map_some']
      rw [restoreElem_unmarked _ hm]
  · intro e hme
    rw [writeElemIncremental_eq]
    exact restore_applyWriteElem M e _ _ _ _ hme

/-- C1 (witness): the round trip at a concrete page. -/
theorem activate_deactivate_round_trip_witness :
    ((removeDarkModeStyles (applyDarkModeStyles ciM envEmpty
        (engine0 [elemStyled]))).elems.get? 0).map (fun e => e.sty)
      = some elemStyled.sty := by
  have h := (activate_deactivate_round_trip ciM envEmpty (engine0 [elemStyled]) 0
    (by norm_num [engine0]) rfl).1
  exact h

/-- C2 (counterexample): the claim says an element has a snapshot entry iff
it carries the marker.  But the snapshot is taken before knowing whether any
override applies (lines 495-498), while the marker is set only if one did
(lines 528-530): an element whose computed colors are all transparent is
snapshotted yet left unmarked by a pass. -/
theorem snapshot_marker_iff_counterexample :
    ((applyDarkModeStyles ciM envEmpty (engine0 [elem0])).elems.get? 0).map
      (fun e => (e.marker, e.snap.isSome)) = some (false, true) := by
  norm_num [applyDarkModeStyles, strategy1Rules, TARGET_CSS_VARIABLES, envEmpty,
    engine0, writeElemInitial, writeElemFromRecord, readElem, processBg,
    processTextInitial, processFill, processStroke, applyWriteElem, applyProps,
    getRelativeLuminance, calculateContrast, ciM, elem0, emptyStyle,
    styleAttrGet, TARGET_CONTRAST]

/-- C2 (amended): the marker implies a snapshot entry — but not conversely,
since a visited element that receives no override is snapshotted without
being marked.  Both passes preserve the marker-implies-entry invariant;
rollback removes the snapshot entry exactly when it clears a marker, which
it does for every marked `HTMLElement`/`SVGElement` (the only kinds the
write phases ever mark), while skipping marked elements of any other kind
(the `instanceof` gate on line 635). -/
theorem snapshot_marker_invariant_amended {Str C : Type} (M : CuloriModel Str C)
    (env : Env Str) (s : Engine Str)
    (hinv : ∀ e ∈ s.elems, e.marker = true → e.snap ≠ none) :
    (∀ e2 ∈ (applyDarkModeStyles M env s).elems, e2.marker = true → e2.snap ≠ none)
    ∧ (∀ e : PElem Str, (e.marker = true → e.snap ≠ none) →
        (writeElemIncremental M e).marker = true →
        (writeElemIncremental M e).snap ≠ none)
    ∧ (∀ i : Nat, ∀ hi : i < s.elems.length,
        (s.elems.get ⟨i, hi⟩).marker = true →
        ((s.elems.get ⟨i, hi⟩).kind = EKind.html
          ∨ (s.elems.get ⟨i, hi⟩).kind = EKind.svg) →
        ((removeDarkModeStyles s).elems.get? i).map (fun e => (e.marker, e.snap))
          = some (false, none))
    ∧ (∀ i : Nat, ∀ hi : i < s.elems.length,
        ¬ ((s.elems.get ⟨i, hi⟩).kind = EKind.html
          ∨ (s.elems.get ⟨i, hi⟩).kind = EKind.svg) →
        (removeDarkModeStyles s).elems.get? i = some (s.elems.get ⟨i, hi⟩)) := by
  refine ⟨?_, ?_, ?_, ?_⟩
  · intro e2 he2
    by_cases hsheet : s.sheetExists = true
    · rw [applyDark_eq M env s hsheet] at he2
      have he2b : e2 ∈ s.elems.map (writeElemInitial M) := he2
      obtain ⟨e, hemem, rfl⟩ := List.mem_map.mp he2b
      rw [writeElemInitial_eq]
      exact applyWriteElem_marker_snap M e _ _ _ _ (hinv e hemem)
    · rw [applyDark_not_sheet M env s hsheet] at he2
      exact hinv e2 he2
  · intro e hms
    rw [writeElemIncremental_eq]
    exact applyWriteElem_marker_snap M e _ _ _ _ hms
  · intro i hi hmark hkind
    show ((List.map restoreElem s.elems).get? i).map (fun e => (e.marker, e.snap)) = _
    rw [List.get?_map, List.get?_eq_get hi]
    have h := restoreElem_marked (s.elems.get ⟨i, hi⟩) hmark hkind
    simp only [Option.map_some']
    exact congrArg some (Prod.ext h.1 h.2)
  · intro i hi hkind
    show (List.map restoreElem s.elems).get? i = _
    rw [List.get?_map, List.get?_eq_get hi]
    exact congrArg some (restoreElem_not_gate (s.elems.get ⟨i, hi⟩) hkind)

/-- C2 (witness): the amended invariant exercised on a marked element. -/
theorem snapshot_marker_invariant_amended_witness :
    ((removeDarkModeStyles (engine0 [elemMarked])).elems.get? 0).map
      (fun e => (e.marker, e.snap)) = some (false, none) := by
  have h := (snapshot_marker_invariant_amended ciM envEmpty (engine0 [elemMarked])
    (by
      intro e he hm
      have he2 : e = elemMarked := by simpa [engine0] using he
      subst he2
      simp [elemMarked, elem0])).2.2.1 0 (by norm_num [engine0]) rfl
    (Or.inl rfl)
  exact h

/-- C5 (counterexample): the claim asserts a hard text-lightness floor of
0.75 against a dark effective background for both passes, but the initial
pass only runs the iterative adjuster: a text color of lightness 0.8 over a
transparent background (effective background lightness 0.2) is inverted to
0.2 and then only adjusted up to 5/8 < 3/4. -/
theorem contrast_floor_counterexample :
    (bgResOf ciM elemTextOnly).finalBackgroundL < 1/2
    ∧ (writeElemInitial ciM elemTextOnly).sty.color = some ⟨5/8, 0, some 0, none⟩
    ∧ ¬ (3/4 : ℚ) ≤ 5/8 := by
  refine ⟨?_, ?_, by norm_num⟩
  · norm_num [bgResOf, readElem, processBg, getRelativeLuminance, ciM,
      elemTextOnly, elem0, emptyStyle]
  · norm_num [writeElemInitial, writeElemFromRecord, readElem, processBg,
      processTextInitial, processFill, processStroke, applyWriteElem, applyProps,
      adjustTextLightnessForContrast, adjustRun, adjustLoop, getRelativeLuminance,
      calculateContrast, ciM, elemTextOnly, elem0, emptyStyle, styleAttrGet,
      TARGET_CONTRAST, MAX_CONTRAST_ITERATIONS]

/-- C5 (amended): the hard floor/ceiling holds for the incremental mutation
pass: whenever its text computation produces a color, that color's lightness
is at least 0.75 if the effective background lightness is below 0.5, and at
most 0.25 otherwise; moreover any text color the incremental pass actually
writes into an element's inline style is the hex-formatted result of exactly
that computation.  The initial full-document pass has no such clamp; it runs
the iterative contrast adjuster instead. -/
theorem contrast_floor_incremental_amended {Str C : Type} (M : CuloriModel Str C)
    (isButton : Prop) [Decidable isButton] (originalColor : Str)
    (finalBackgroundL : ℚ) (col : Oklch)
    (hres : processTextIncremental M isButton originalColor finalBackgroundL
      = some col) :
    (finalBackgroundL < 1/2 → 3/4 ≤ col.l)
    ∧ (1/2 ≤ finalBackgroundL → col.l ≤ 1/4)
    ∧ ∀ (e : PElem Str) (s : Str), e.sty.color = none →
        (writeElemIncremental M e).sty.color = some s →
        ∃ col2, newColorIncrOf M e = some col2 ∧ s = M.formatHex col2 := by
  have hwrite : ∀ (e : PElem Str) (s : Str), e.sty.color = none →
      (writeElemIncremental M e).sty.color = some s →
      ∃ col2, newColorIncrOf M e = some col2 ∧ s = M.formatHex col2 := by
    intro e s hnone hsome
    by_cases hg : e.kind = EKind.html ∨ e.kind = EKind.svg
    · rw [writeElemIncremental_eq, applyWriteElem_gate M e _ _ _ _ hg] at hsome
      have hsome2 : (applyProps M e.sty
          (e.kind = EKind.html ∧ (e.offsetHeight < 24 ∨ e.offsetWidth < 24))
          (bgResOf M e).newBg (newColorIncrOf M e) (newFillOf M e)
          (newStrokeOf M e)).1.color = some s := hsome
      rw [applyProps_color] at hsome2
      rcases hcol : newColorIncrOf M e with _ | col2
      · rw [hcol] at hsome2
        rw [hnone] at hsome2
        exact absurd hsome2 (by simp)
      · rw [hcol] at hsome2
        injection hsome2 with h2
        exact ⟨col2, rfl, h2.symm⟩
    · rw [writeElemIncremental_eq, applyWriteElem_not_gate M e _ _ _ _ hg] at hsome
      rw [hnone] at hsome
      exact absurd hsome (by simp)
  have hfloor : (finalBackgroundL < 1/2 → 3/4 ≤ col.l)
      ∧ (1/2 ≤ finalBackgroundL → col.l ≤ 1/4) := by
    rcases hp : M.parse originalColor with _ | p
    · simp only [processTextIncremental, hp] at hres
      exact absurd hres (by simp)
    · by_cases halpha : 1/2 < (M.alphaOf p).getD 1
      · rcases hok : M.toOklch p with _ | ok
        · simp only [processTextIncremental, hp, hok, halpha, if_true] at hres
          exact absurd hres (by simp)
        · simp only [processTextIncremental, hp, hok, halpha, if_true,
            Option.some.injEq] at hres
          subst hres
          constructor
          · intro hfb
            simp only [if_pos hfb]
            exact le_max_right _ _
          · intro hfb
            have hfb2 : ¬ finalBackgroundL < 1/2 := not_lt.mpr hfb
            simp only [if_neg hfb2]
            exact min_le_right _ _
      · simp only [processTextIncremental, hp, halpha, if_false] at hres
        exact absurd hres (by simp)
  exact ⟨hfloor.1, hfloor.2, hwrite⟩

/-- C5 (witness): the incremental clamp at a concrete input. -/
theorem contrast_floor_incremental_amended_witness :
    (1 : ℚ)/5 < 1/2
    ∧ (3 : ℚ)/4 ≤ (Oklch.mk (3/4) 0 (some 0) none).l := by
  refine ⟨by norm_num, ?_⟩
  have h := contrast_floor_incremental_amended ciM False
    (⟨3/10, 0, none, none⟩ : Oklch) (1/5) ⟨3/4, 0, some 0, none⟩
    (by norm_num [processTextIncremental, ciM])
  exact h.1 (by norm_num)

/-- C6 (counterexample): the claim requires direct text content for a
background override, but the code never consults text content — an element
with no direct text, an opaque light background and sufficient size receives
a background override. -/
theorem no_text_suppression_counterexample :
    elemNoText.hasDirectText = false
    ∧ elemNoText.sty.bg = none
    ∧ (writeElemInitial ciM elemNoText).sty.bg = some ⟨1/10, 0, some 0, none⟩ := by
  refine ⟨rfl, rfl, ?_⟩
  have hbtn : ¬ (("P" : String) = "BUTTON") := by decide
  norm_num [writeElemInitial, writeElemFromRecord, readElem, processBg,
    processTextInitial, processFill, processStroke, applyWriteElem, applyProps,
    getRelativeLuminance, calculateContrast, ciM, elemNoText, elem0, emptyStyle,
    TARGET_CONTRAST, hbtn]

/-- C6 (amended): a background override is computed exactly when the original
background parses with alpha above 0.5 and converts to a lightness above 0.3;
direct text content is never consulted — the write decision is invariant
under the element's `hasDirectText` flag. -/
theorem background_override_amended {Str C : Type} (M : CuloriModel Str C)
    (isButton : Prop) [Decidable isButton] (originalBg : Str) :
    ((processBg M isButton originalBg).newBg ≠ none ↔
      ∃ p ok, M.parse originalBg = some p ∧ 1/2 < (M.alphaOf p).getD 1
        ∧ M.toOklch p = some ok ∧ 3/10 < ok.l)
    ∧ ∀ (e : PElem Str) (b : Bool),
        (writeElemInitial M { e with hasDirectText := b }).sty
          = (writeElemInitial M e).sty := by
  constructor
  · rcases hp : M.parse originalBg with _ | p
    · simp [processBg, hp]
    · by_cases halpha : 1/2 < (M.alphaOf p).getD 1
      · rcases hok : M.toOklch p with _ | ok
        · simp only [processBg, hp]
          rw [if_pos halpha]
          simp [hok]
        · by_cases hl : 3/10 < ok.l
          · simp only [processBg, hp]
            rw [if_pos halpha]
            simp only [hok, hl, if_true]
            constructor
            · intro _
              exact ⟨p, ok, rfl, halpha, hok, hl⟩
            · intro _
              simp
          · simp only [processBg, hp]
            rw [if_pos halpha]
            simp only [hok, hl, if_false]
            constructor
            · intro hcon
              exact absurd rfl hcon
            · rintro ⟨p2, ok2, hp2, _, hok2, hl2⟩
              injection hp2 with hp3
              subst hp3
              rw [hok] at hok2
              injection hok2 with hok3
              subst hok3
              exact absurd hl2 hl
      · simp only [processBg, hp]
        rw [if_neg halpha]
        constructor
        · intro hcon
          exact absurd rfl hcon
        · rintro ⟨p2, ok2, hp2, halpha2, _, _⟩
          injection hp2 with hp3
          subst hp3
          exact absurd halpha2 halpha
  · intro e b
    by_cases hg : e.kind = EKind.html ∨ e.kind = EKind.svg
    · rw [writeElemInitial_eq, writeElemInitial_eq,
        applyWriteElem_gate M { e with hasDirectText := b } _ _ _ _ hg,
        applyWriteElem_gate M e _ _ _ _ hg]
      rfl
    · rw [writeElemInitial_eq, writeElemInitial_eq,
        applyWriteElem_not_gate M { e with hasDirectText := b } _ _ _ _ hg,
        applyWriteElem_not_gate M e _ _ _ _ hg]

/-- C6 (witness): the background-override characterization at a concrete
opaque light background. -/
theorem background_override_amended_witness :
    (processBg ciM False (⟨9/10, 0, none, none⟩ : Oklch)).newBg ≠ none := by
  exact (background_override_amended ciM False (⟨9/10, 0, none, none⟩ : Oklch)).1.mpr
    ⟨⟨9/10, 0, none, none⟩, ⟨9/10, 0, none, none⟩, rfl, by norm_num [ciM],
      rfl, by norm_num⟩

/-- C7 (counterexample): the claim says any element with rendered width or
height below 24 px never gets a background override, but the small-element
check tests `instanceof HTMLElement` first (lines 502-503), so a 10 by 10 svg
element with an eligible background is still overridden. -/
theorem small_element_suppression_counterexample :
    elemSmallSvg.offsetWidth < 24
    ∧ elemSmallSvg.sty.bg = none
    ∧ (writeElemInitial ciM elemSmallSvg).sty.bg = some ⟨1/10, 0, some 0, none⟩ := by
  refine ⟨by norm_num [elemSmallSvg, elem0], rfl, ?_⟩
  have hbtn : ¬ (("svg" : String) = "BUTTON") := by decide
  have hkind : ¬ (EKind.svg = EKind.html) := by decide
  norm_num [writeElemInitial, writeElemFromRecord, readElem, processBg,
    processTextInitial, processFill, processStroke, applyWriteElem, applyProps,
    getRelativeLuminance, calculateContrast, ciM, elemSmallSvg, elem0,
    emptyStyle, TARGET_CONTRAST, hbtn, hkind]

/-- C7 (amended): an HTML element whose `offsetHeight` or `offsetWidth` is
below 24 never receives a background override, in either pass; the size
check does not extend to svg elements. -/
theorem small_element_suppression_amended {Str C : Type} (M : CuloriModel Str C)
    (e : PElem Str) (hk : e.kind = EKind.html)
    (hsmall : e.offsetHeight < 24 ∨ e.offsetWidth < 24) :
    (writeElemInitial M e).sty.bg = e.sty.bg
    ∧ (writeElemIncremental M e).sty.bg = e.sty.bg := by
  have hg : e.kind = EKind.html ∨ e.kind = EKind.svg := Or.inl hk
  constructor
  · rw [writeElemInitial_eq, applyWriteElem_gate M e _ _ _ _ hg]
    exact applyProps_bg_of_small M e.sty _ _ _ _ _ ⟨hk, hsmall⟩
  · rw [writeElemIncremental_eq, applyWriteElem_gate M e _ _ _ _ hg]
    exact applyProps_bg_of_small M e.sty _ _ _ _ _ ⟨hk, hsmall⟩

/-- C7 (witness): the amended suppression at a concrete small HTML
element. -/
theorem small_element_suppression_amended_witness :
    (writeElemInitial ciM { elem0 with offsetWidth := 10 }).sty.bg
        = ({ elem0 with offsetWidth := 10 } : PElem Oklch).sty.bg
    ∧ (writeElemIncremental ciM { elem0 with offsetWidth := 10 }).sty.bg
        = ({ elem0 with offsetWidth := 10 } : PElem Oklch).sty.bg := by
  exact small_element_suppression_amended ciM { elem0 with offsetWidth := 10 }
    rfl (Or.inr (by norm_num [elem0]))

theorem writeElemInitial_marked {Str C : Type} (M : CuloriModel Str C)
    (e : PElem Str) (hm : e.marker = true) :
    (writeElemInitial M e).marker = true
    ∧ (writeElemInitial M e).snap = e.snap := by
  rw [writeElemInitial_eq]
  by_cases hg : e.kind = EKind.html ∨ e.kind = EKind.svg
  · rw [applyWriteElem_gate M e _ _ _ _ hg]
    constructor
    · simp [hm]
    · simp [hm]
  · rw [applyWriteElem_not_gate M e _ _ _ _ hg]
    exact ⟨hm, rfl⟩

/-- Re-running the initial write pass over an already-processed element does
not change its marker or its snapshot entry. -/
theorem writeElemInitial_stable {Str C : Type} (M : CuloriModel Str C)
    (e : PElem Str) :
    (writeElemInitial M (writeElemInitial M e)).marker
        = (writeElemInitial M e).marker
    ∧ (writeElemInitial M (writeElemInitial M e)).snap
        = (writeElemInitial M e).snap := by
  by_cases hg : e.kind = EKind.html ∨ e.kind = EKind.svg
  · by_cases hm : e.marker = true
    · have h1 := writeElemInitial_marked M e hm
      have h2 := writeElemInitial_marked M (writeElemInitial M e) h1.1
      exact ⟨h2.1.trans h1.1.symm, h2.2⟩
    · have hm2 : e.marker = false := by simpa using hm
      have he1 : writeElemInitial M e = { e with
          sty := (applyProps M e.sty
            (e.kind = EKind.html ∧ (e.offsetHeight < 24 ∨ e.offsetWidth < 24))
            (bgResOf M e).newBg (newColorInitOf M e) (newFillOf M e)
            (newStrokeOf M e)).1
          snap := some (styleAttrGet e.sty)
          marker := (applyProps M e.sty
            (e.kind = EKind.html ∧ (e.offsetHeight < 24 ∨ e.offsetWidth < 24))
            (bgResOf M e).newBg (newColorInitOf M e) (newFillOf M e)
            (newStrokeOf M e)).2 } := by
        rw [writeElemInitial_eq, applyWriteElem_gate M e _ _ _ _ hg, hm2]
        simp
      by_cases ha : (applyProps M e.sty
          (e.kind = EKind.html ∧ (e.offsetHeight < 24 ∨ e.offsetWidth < 24))
          (bgResOf M e).newBg (newColorInitOf M e) (newFillOf M e)
          (newStrokeOf M e)).2 = true
      · have h1m : (writeElemInitial M e).marker = true := by
          rw [he1]
          exact ha
        have h2 := writeElemInitial_marked M (writeElemInitial M e) h1m
        exact ⟨h2.1.trans h1m.symm, h2.2⟩
      · have ha2 : (applyProps M e.sty
            (e.kind = EKind.html ∧ (e.offsetHeight < 24 ∨ e.offsetWidth < 24))
            (bgResOf M e).newBg (newColorInitOf M e) (newFillOf M e)
            (newStrokeOf M e)).2 = false := by simpa using ha
        have hsty : (applyProps M e.sty
            (e.kind = EKind.html ∧ (e.offsetHeight < 24 ∨ e.offsetWidth < 24))
            (bgResOf M e).newBg (newColorInitOf M e) (newFillOf M e)
            (newStrokeOf M e)).1 = e.sty :=
          applyProps_snd_false M e.sty _ _ _ _ _ ha2
        have he1b : writeElemInitial M e = { e with
            snap := some (styleAttrGet e.sty)
            marker := false } := by
          rw [he1, hsty, ha2]
        rw [he1b]
        have he2 : writeElemInitial M
            ({ e with snap := some (styleAttrGet e.sty), marker := false })
            = { e with
                sty := (applyProps M e.sty
                  (e.kind = EKind.html ∧ (e.offsetHeight < 24 ∨ e.offsetWidth < 24))
                  (bgResOf M e).newBg (newColorInitOf M e) (newFillOf M e)
                  (newStrokeOf M e)).1
                snap := some (styleAttrGet e.sty)
                marker := (applyProps M e.sty
                  (e.kind = EKind.html ∧ (e.offsetHeight < 24 ∨ e.offsetWidth < 24))
                  (bgResOf M e).newBg (newColorInitOf M e) (newFillOf M e)
                  (newStrokeOf M e)).2 } := by
          rw [writeElemInitial_eq,
            applyWriteElem_gate M { e with snap := some (styleAttrGet e.sty), marker := false } _ _ _ _ hg]
          simp
          exact ⟨rfl, rfl⟩
        rw [he2, hsty, ha2]
        exact ⟨rfl, rfl⟩
  · have h1 : writeElemInitial M e = e := by
      rw [writeElemInitial_eq, applyWriteElem_not_gate M e _ _ _ _ hg]
    rw [h1, h1]
    exact ⟨rfl, rfl⟩

/-- C3 (counterexample): a second activation is not a no-op on the DOM.  The
second pass reads computed styles already transformed by the first pass and
re-transforms them: a text color taken to lightness 5/8 by the first
activation is rewritten to lightness 4/5 by the second, so the inline styles
after two activations differ from those after one. -/
theorem activate_twice_counterexample :
    ((applyDarkModeStyles ciM envEmpty
        (applyDarkModeStyles ciM envEmpty (engine0 [elemTextOnly]))).elems.map
      (fun e => e.sty.color))
    ≠ ((applyDarkModeStyles ciM envEmpty (engine0 [elemTextOnly])).elems.map
      (fun e => e.sty.color)) := by
  norm_num [applyDarkModeStyles, strategy1Rules, TARGET_CSS_VARIABLES, envEmpty,
    engine0, writeElemInitial, writeElemFromRecord, readElem, processBg,
    processTextInitial, processFill, processStroke, applyWriteElem, applyProps,
    adjustTextLightnessForContrast, adjustRun, adjustLoop, getRelativeLuminance,
    calculateContrast, ciM, elemTextOnly, elem0, emptyStyle, styleAttrGet,
    TARGET_CONTRAST, MAX_CONTRAST_ITERATIONS]

/-- C3 (amended): a second activation leaves the engine-owned bookkeeping
exactly as after the first — body class, adopted-stylesheet list (no
duplicate entry), sheet content, observer (no second watcher is created) and
every element's marker and snapshot (no duplicate or overwritten snapshots) —
but element inline styles may be transformed again, so the whole DOM state
need not be identical. -/
theorem activate_idempotent_amended {Str C : Type} (M : CuloriModel Str C)
    (env : Env Str) (s : Engine Str) :
    (applyDarkModeStyles M env (applyDarkModeStyles M env s)).bodyClass
        = (applyDarkModeStyles M env s).bodyClass
    ∧ (applyDarkModeStyles M env (applyDarkModeStyles M env s)).adopted
        = (applyDarkModeStyles M env s).adopted
    ∧ (applyDarkModeStyles M env (applyDarkModeStyles M env s)).sheetContent
        = (applyDarkModeStyles M env s).sheetContent
    ∧ (applyDarkModeStyles M env (applyDarkModeStyles M env s)).observer
        = (applyDarkModeStyles M env s).observer
    ∧ (applyDarkModeStyles M env (applyDarkModeStyles M env s)).observersCreated
        = (applyDarkModeStyles M env s).observersCreated
    ∧ (applyDarkModeStyles M env (applyDarkModeStyles M env s)).elems.map
          (fun e => (e.marker, e.snap))
        = (applyDarkModeStyles M env s).elems.map (fun e => (e.marker, e.snap)) := by
  by_cases hsheet : s.sheetExists = true
  · have hs1 := applyDark_eq M env s hsheet
    have hsheet1 : (applyDarkModeStyles M env s).sheetExists = true := by
      rw [hs1]
      exact hsheet
    have hs2 := applyDark_eq M env (applyDarkModeStyles M env s) hsheet1
    refine ⟨?_, ?_, ?_, ?_, ?_, ?_⟩
    · rw [hs2, hs1]
    · rw [hs2, hs1]
      have hmem : dynamicSheetId ∈
          (if dynamicSheetId ∈ s.adopted then s.adopted
            else s.adopted ++ [dynamicSheetId]) := by
        split_ifs with hin
        · exact hin
        · simp
      rw [if_pos hmem]
    · rw [hs2, hs1]
    · rw [hs2, hs1]
    · rw [hs2, hs1]
      simp
    · rw [hs2, hs1]
      simp only [List.map_map]
      refine List.map_congr_left ?_
      intro a _
      have h := writeElemInitial_stable M a
      simp only [Function.comp_apply]
      exact Prod.ext h.1 h.2
  · have h1 : applyDarkModeStyles M env s = s := applyDark_not_sheet M env s hsheet
    rw [h1, h1]
    exact ⟨rfl, rfl, rfl, rfl, rfl, rfl⟩

/-- C4 (counterexample): the claim says Strategy 2 inline overrides still
apply when the adopted-stylesheet primitive is unavailable; but
`applyDarkModeStyles` returns immediately in that case (line 180), so an
element that receives a background override when the sheet exists receives
nothing at all without it. -/
theorem degraded_mode_counterexample :
    ((applyDarkModeStyles ciM envEmpty
        { engine0 [elemOpaqueBg] with sheetExists := false }).elems.map
      (fun e => e.sty.bg)) = [none]
    ∧ ((applyDarkModeStyles ciM envEmpty (engine0 [elemOpaqueBg])).elems.map
      (fun e => e.sty.bg)) = [some ⟨1/10, 0, some 0, none⟩] := by
  constructor
  · norm_num [applyDarkModeStyles, engine0, elemOpaqueBg, elem0, emptyStyle]
  · have hbtn : ¬ (("P" : String) = "BUTTON") := by decide
    norm_num [applyDarkModeStyles, strategy1Rules, TARGET_CSS_VARIABLES,
      envEmpty, engine0, writeElemInitial, writeElemFromRecord, readElem,
      processBg, processTextInitial, processFill, processStroke, applyWriteElem,
      applyProps, getRelativeLuminance, calculateContrast, ciM, elemOpaqueBg,
      elem0, emptyStyle, styleAttrGet, TARGET_CONTRAST, hbtn]

/-- C4 (amended): when the `CSSStyleSheet` constructor failed at startup,
activation does not throw and performs no work at all: it declines
Strategy 1 and also skips Strategy 2, the body class, the observer and the
cache write (early return on line 180). -/
theorem degraded_mode_amended {Str C : Type} (M : CuloriModel Str C)
    (env : Env Str) (s : Engine Str) (hsheet : s.sheetExists = false) :
    applyDarkModeStyles M env s = s :=
  applyDark_not_sheet M env s (by simp [hsheet])

/-- C4 (witness): the no-op activation at a concrete engine state. -/
theorem degraded_mode_amended_witness :
    applyDarkModeStyles ciM envEmpty { engine0 [elemOpaqueBg] with sheetExists := false }
      = { engine0 [elemOpaqueBg] with sheetExists := false } :=
  degraded_mode_amended ciM envEmpty _ rfl

end EyeLove
